import Mathlib

/-!
Verification of the CRUD-API repository (an in-memory Book CRUD HTTP service).

The repository contains two lineages of the same service:
  * `src/main.go` — gin-based, `sync.RWMutex`, method `(bs *BookService)`;
  * `src/unnamed/part_000` — gorilla/mux-based, plain `sync.Mutex`, package globals.

Both keep a `map[string]Book` guarded by a lock.  We embed the storage map as
an association list with Go-map semantics (insert replaces the value at an
existing key, delete removes the entry), embed each handler as a pure function
from the decoded request to the new storage plus an HTTP response, and embed
the lock/IO ordering of each handler body as a list of atomic actions.
-/

set_option autoImplicit false

namespace CrudApi

/-- Struct `Book` from both sources: `ID`, `Name`, `Author`, all strings
(`json:"id"`, `json:"name"`, `json:"author"`). -/
structure Book where
  ID : String
  Name : String
  Author : String
deriving DecidableEq, Repr

/-- The storage `map[string]Book`, embedded as an association list.
Go guarantees at most one entry per key; the embedding's operations
preserve that invariant and the theorems state it where needed. -/
abbrev Storage := List (String × Book)

/-- Go map lookup `storage[key]` (the `value, ok` form). -/
def Storage.find? : Storage → String → Option Book
  | [], _ => none
  | (k, b) :: rest, key => if k = key then some b else Storage.find? rest key

/-- Go map assignment `storage[key] = b`: replaces the value at an existing
key, otherwise adds the entry. -/
def Storage.insert : Storage → String → Book → Storage
  | [], key, b => [(key, b)]
  | (k, v) :: rest, key, b =>
    if k = key then (key, b) :: rest else (k, v) :: Storage.insert rest key b

/-- Go `delete(storage, key)`: removes the entry at `key` if present. -/
def Storage.erase : Storage → String → Storage
  | [], _ => []
  | (k, v) :: rest, key => if k = key then rest else (k, v) :: Storage.erase rest key

/-- Response bodies the handlers produce.  `books` carries the Go slice
`[]Book`, which is nil (`none`) when no `append` ever ran; `err` is the error
payload (gin's `gin.H{"error": msg}` or mux's `http.Error` text — both carry
the same message string); `msg` is the delete-success `{"message": ...}`. -/
inductive Body where
  | books (bs : Option (List Book))
  | book (b : Book)
  | err (message : String)
  | msg (message : String)
deriving DecidableEq, Repr

/-- An HTTP response: status code plus body. -/
structure Response where
  status : Nat
  body : Body
deriving DecidableEq, Repr

/-- One loop iteration `books = append(books, book)`: appending to a nil
slice allocates a fresh one-element slice. -/
def appendBook (acc : Option (List Book)) (kv : String × Book) : Option (List Book) :=
  match acc with
  | none => some [kv.2]
  | some l => some (l ++ [kv.2])

/-- Loop `var books []Book; for _, book := range storage` with `append`.
The slice starts as Go `nil`; the first `append` makes it non-nil. -/
def collectBooks (storage : Storage) : Option (List Book) :=
  storage.foldl appendBook none

/-- Hex digit for JSON `\u00XX` escapes. -/
def hexDigit (n : Nat) : Char :=
  if n < 10 then Char.ofNat (48 + n) else Char.ofNat (87 + n)

/-- encoding/json string escaping (with the default HTML escaping gin and
`json.NewEncoder` both apply): quotes, backslash, control characters and
`<`, `>`, `&`. -/
def jsonEscapeChar (c : Char) : String :=
  if c = '"' then "\\\""
  else if c = '\\' then "\\\\"
  else if c = '\n' then "\\n"
  else if c = '\r' then "\\r"
  else if c = '\t' then "\\t"
  else if c = '<' then "\\u003c"
  else if c = '>' then "\\u003e"
  else if c = '&' then "\\u0026"
  else if c.toNat < 32 then
    String.mk ['\\', 'u', '0', '0', hexDigit (c.toNat / 16), hexDigit (c.toNat % 16)]
  else String.singleton c

/-- encoding/json rendering of a Go string. -/
def jsonString (s : String) : String :=
  "\"" ++ String.join (s.data.map jsonEscapeChar) ++ "\""

/-- encoding/json rendering of one `Book` value under its field tags. -/
def Book.toJson (b : Book) : String :=
  "\x7b\"id\":" ++ jsonString b.ID ++ ",\"name\":" ++ jsonString b.Name ++
    ",\"author\":" ++ jsonString b.Author ++ "\x7d"

/-- encoding/json rendering of a `[]Book` slice: a nil slice renders as the
JSON literal `null`, a non-nil slice as a JSON array. -/
def encodeBookSlice : Option (List Book) → String
  | none => "null"
  | some bs => "[" ++ String.intercalate "," (bs.map Book.toJson) ++ "]"

/-- Handler `returnAllBooks` (GET /book), state-and-response content, identical in
both lineages: collect every stored value into a slice and respond 200. -/
def returnAllBooks (storage : Storage) : Response :=
  ⟨200, .books (collectBooks storage)⟩

/-- Handler `returnBooksByID` (GET /book/:id), identical in both lineages: look the
path id up; 404 "Record not found" when absent, else 200 with the record. -/
def returnBooksByID (storage : Storage) (bookID : String) : Response :=
  match storage.find? bookID with
  | some book => ⟨200, .book book⟩
  | none => ⟨404, .err "Record not found"⟩

/-- Handler `createBook` (POST /book) of `src/main.go` (gin lineage).  The argument
`body` is the outcome of `c.ShouldBindJSON`: `none` on decode failure.  On a
duplicate id gin's code answers `http.StatusNotFound` (404). -/
def createBook (storage : Storage) (body : Option Book) : Storage × Response :=
  match body with
  | none => (storage, ⟨400, .err "Invalid JSON format"⟩)
  | some newBook =>
    if (storage.find? newBook.ID).isSome then
      (storage, ⟨404, .err "Record already exists"⟩)
    else
      (storage.insert newBook.ID newBook, ⟨200, .book newBook⟩)

/-- Handler `createBook` of `src/unnamed/part_000` (mux lineage): same logic, but a
duplicate id answers `http.StatusBadRequest` (400). -/
def createBookMux (storage : Storage) (body : Option Book) : Storage × Response :=
  match body with
  | none => (storage, ⟨400, .err "Invalid JSON format"⟩)
  | some newBook =>
    if (storage.find? newBook.ID).isSome then
      (storage, ⟨400, .err "Record already exists"⟩)
    else
      (storage.insert newBook.ID newBook, ⟨200, .book newBook⟩)

/-- Handler `updateBook` (PUT /book/:id), identical state logic in both lineages:
decode failure → 400; absent path id → 404; else store the decoded record at
the PATH id (the payload's own `ID` field is not consulted) and echo it. -/
def updateBook (storage : Storage) (bookID : String) (body : Option Book) :
    Storage × Response :=
  match body with
  | none => (storage, ⟨400, .err "Invalid JSON format"⟩)
  | some updatedBook =>
    if (storage.find? bookID).isSome then
      (storage.insert bookID updatedBook, ⟨200, .book updatedBook⟩)
    else
      (storage, ⟨404, .err "Record not found"⟩)

/-- Handler `deleteBook` (DELETE /book/:id), identical in both lineages: absent id →
404, else remove the entry and respond 200 with the success message. -/
def deleteBook (storage : Storage) (bookID : String) : Storage × Response :=
  if (storage.find? bookID).isSome then
    (storage.erase bookID, ⟨200, .msg "Book deleted successfully"⟩)
  else
    (storage, ⟨404, .err "Record not found"⟩)

/-! ## Lock / IO ordering of the handler bodies

Each handler body is a straight-line sequence of atomic actions per control
path.  `lock`/`unlock` are the exclusive mutex operations, `rlock`/`runlock`
the shared ones (gin lineage reads), `decode` the JSON body decode (network
read), `check` the existence lookup, `read` the map read/iteration, `write`
the map assignment, `remove` the map delete, `respond` the response
encode-and-write (network write). -/

inductive Action where
  | lock | unlock | rlock | runlock
  | decode | check | read | write | remove | respond
deriving DecidableEq, Repr

/-- Holds (`true`) iff some `respond` action executes while the store's lock (shared
or exclusive) is held.  `held` tracks the lock state. -/
def respondWhileHeld : Bool → List Action → Bool
  | _, [] => false
  | _, .lock :: rest => respondWhileHeld true rest
  | _, .unlock :: rest => respondWhileHeld false rest
  | _, .rlock :: rest => respondWhileHeld true rest
  | _, .runlock :: rest => respondWhileHeld false rest
  | held, .respond :: rest => held || respondWhileHeld held rest
  | held, _ :: rest => respondWhileHeld held rest

/-- Holds (`true`) iff some `decode` action executes while the store's lock is held. -/
def decodeWhileHeld : Bool → List Action → Bool
  | _, [] => false
  | _, .lock :: rest => decodeWhileHeld true rest
  | _, .unlock :: rest => decodeWhileHeld false rest
  | _, .rlock :: rest => decodeWhileHeld true rest
  | _, .runlock :: rest => decodeWhileHeld false rest
  | held, .decode :: rest => held || decodeWhileHeld held rest
  | held, _ :: rest => decodeWhileHeld held rest

/-- After seeing a `check` executed under the exclusive lock, scan on for a
`write` reached without the lock being released in between. -/
def writeBeforeRelease : List Action → Bool
  | [] => false
  | .unlock :: _ => false
  | .write :: _ => true
  | _ :: rest => writeBeforeRelease rest

/-- Holds (`true`) iff the trace performs its existence `check` and its map `write`
under one continuously-held exclusive lock acquisition: the `check` runs with
the exclusive lock held and the `write` follows before any `unlock`. -/
def checkThenWriteAtomic : Bool → List Action → Bool
  | _, [] => false
  | _, .lock :: rest => checkThenWriteAtomic true rest
  | _, .unlock :: rest => checkThenWriteAtomic false rest
  | held, .check :: rest =>
    (held && writeBeforeRelease rest) || checkThenWriteAtomic held rest
  | held, _ :: rest => checkThenWriteAtomic held rest

/-- gin `returnAllBooks`: `RLock`, `defer RUnlock`, range loop, `c.JSON`.
The deferred `RUnlock` runs after `c.JSON` has written the response. -/
def ginListTrace : List Action := [.rlock, .read, .respond, .runlock]

/-- gin `returnBooksByID` (both found and not-found paths respond after the
explicit `RUnlock`). -/
def ginGetTrace : List Action := [.rlock, .read, .runlock, .respond]

/-- gin `createBook`, decode-failure path. -/
def ginCreateDecodeErrTrace : List Action := [.decode, .respond]

/-- gin `createBook`, duplicate-id path: the existence check runs before the
lock is ever taken. -/
def ginCreateConflictTrace : List Action := [.decode, .check, .respond]

/-- gin `createBook`, success path: check (unlocked), then `Lock`, write,
`Unlock`, then respond. -/
def ginCreateOkTrace : List Action := [.decode, .check, .lock, .write, .unlock, .respond]

/-- gin `updateBook`, decode-failure path. -/
def ginUpdateDecodeErrTrace : List Action := [.decode, .respond]

/-- gin `updateBook`, not-found path: `Lock`, `defer Unlock`, check, respond
(inside `NoExist`), deferred `Unlock`. -/
def ginUpdateNotFoundTrace : List Action := [.decode, .lock, .check, .respond, .unlock]

/-- gin `updateBook`, success path: the deferred `Unlock` runs after `c.JSON`. -/
def ginUpdateOkTrace : List Action := [.decode, .lock, .check, .write, .respond, .unlock]

/-- gin `deleteBook`, not-found path. -/
def ginDeleteNotFoundTrace : List Action := [.lock, .check, .respond, .unlock]

/-- gin `deleteBook`, success path: the deferred `Unlock` runs after `c.JSON`. -/
def ginDeleteOkTrace : List Action := [.lock, .check, .remove, .respond, .unlock]

/-- mux `returnAllBooks`: plain `mu.Lock`, `defer mu.Unlock`, encode inside. -/
def muxListTrace : List Action := [.lock, .read, .respond, .unlock]

/-- mux `returnBooksByID`: explicit `mu.Unlock` before writing the response. -/
def muxGetTrace : List Action := [.lock, .read, .unlock, .respond]

/-- mux `createBook`, decode-failure path. -/
def muxCreateDecodeErrTrace : List Action := [.decode, .respond]

/-- mux `createBook`, duplicate-id path: check before any lock. -/
def muxCreateConflictTrace : List Action := [.decode, .check, .respond]

/-- mux `createBook`, success path. -/
def muxCreateOkTrace : List Action := [.decode, .check, .lock, .write, .unlock, .respond]

/-- mux `updateBook`, decode-failure path. -/
def muxUpdateDecodeErrTrace : List Action := [.decode, .respond]

/-- mux `updateBook`, not-found path. -/
def muxUpdateNotFoundTrace : List Action := [.decode, .lock, .check, .respond, .unlock]

/-- mux `updateBook`, success path: encode runs before the deferred `Unlock`. -/
def muxUpdateOkTrace : List Action := [.decode, .lock, .check, .write, .respond, .unlock]

/-- mux `deleteBook`, not-found path. -/
def muxDeleteNotFoundTrace : List Action := [.lock, .check, .respond, .unlock]

/-- mux `deleteBook`, success path: encode runs before the deferred `Unlock`. -/
def muxDeleteOkTrace : List Action := [.lock, .check, .remove, .respond, .unlock]

/-- Every control path of every handler, in both lineages. -/
def allHandlerTraces : List (List Action) :=
  [ginListTrace, ginGetTrace,
   ginCreateDecodeErrTrace, ginCreateConflictTrace, ginCreateOkTrace,
   ginUpdateDecodeErrTrace, ginUpdateNotFoundTrace, ginUpdateOkTrace,
   ginDeleteNotFoundTrace, ginDeleteOkTrace,
   muxListTrace, muxGetTrace,
   muxCreateDecodeErrTrace, muxCreateConflictTrace, muxCreateOkTrace,
   muxUpdateDecodeErrTrace, muxUpdateNotFoundTrace, muxUpdateOkTrace,
   muxDeleteNotFoundTrace, muxDeleteOkTrace]

/-! ## Two concurrent `createBook` requests

A small interleaving semantics for two goroutines both executing the
`createBook` body (after a successful decode) with the same payload.  Each
program counter matches one atomic step of the source:
`0` = the unlocked existence check `_, exists := storage[newBook.ID]`;
`1` = the branch on `exists`; `2` = `mu.Lock()` (blocks while held);
`3` = `storage[newBook.ID] = newBook`; `4` = `mu.Unlock()`;
`5` = write the response; `6` = done. -/

structure TState where
  pc : Nat
  sawExists : Bool
  status : Option Nat
deriving DecidableEq, Repr

/-- Initial state of one goroutine. -/
def TState.init : TState := ⟨0, false, none⟩

/-- One atomic step of the `createBook` body for a goroutine with decoded
payload `b`, given the shared storage and lock state.  Returns the updated
shared state and thread state.  The conflict branch uses status 404 as in the
gin lineage; the race below never takes that branch, so the result holds for
both lineages. -/
def stepCreate (b : Book) (storage : Storage) (lockHeld : Bool) (t : TState) :
    Storage × Bool × TState :=
  match t.pc with
  | 0 => (storage, lockHeld, ⟨1, (storage.find? b.ID).isSome, t.status⟩)
  | 1 =>
    if t.sawExists then (storage, lockHeld, ⟨6, t.sawExists, some 404⟩)
    else (storage, lockHeld, ⟨2, t.sawExists, t.status⟩)
  | 2 =>
    if lockHeld then (storage, lockHeld, t)
    else (storage, true, ⟨3, t.sawExists, t.status⟩)
  | 3 => (storage.insert b.ID b, lockHeld, ⟨4, t.sawExists, t.status⟩)
  | 4 => (storage, false, ⟨5, t.sawExists, t.status⟩)
  | 5 => (storage, lockHeld, ⟨6, t.sawExists, some 200⟩)
  | _ => (storage, lockHeld, t)

/-- The whole system: shared storage, the mutex, and the two goroutines. -/
structure Sys where
  storage : Storage
  lockHeld : Bool
  t0 : TState
  t1 : TState
deriving DecidableEq, Repr

/-- Both goroutines poised to run `createBook` on the empty storage. -/
def Sys.init : Sys := ⟨[], false, TState.init, TState.init⟩

/-- Run one step of goroutine `0` or `1` (`false` = goroutine 0). -/
def schedStep (b : Book) (s : Sys) (who : Bool) : Sys :=
  if who then
    let (st, lk, t) := stepCreate b s.storage s.lockHeld s.t1
    ⟨st, lk, s.t0, t⟩
  else
    let (st, lk, t) := stepCreate b s.storage s.lockHeld s.t0
    ⟨st, lk, t, s.t1⟩

/-- Run a schedule (a list of goroutine choices). -/
def runSched (b : Book) (sched : List Bool) : Sys :=
  sched.foldl (schedStep b) Sys.init

/-- The schedule in which both goroutines perform their (unlocked) existence
check before either acquires the mutex, then each finishes in turn. -/
def raceSchedule : List Bool :=
  [false, true, false, false, false, false, false, true, true, true, true, true]

/-! ## Reachable store states

The store starts empty and evolves only through the mutating handlers.  `Op`
records one successful-or-failed mutating request (with its body already
decoded); `applyOp` is the state effect of the corresponding handler. -/

inductive Op where
  | create (b : Book)
  | update (k : String) (b : Book)
  | delete (k : String)
deriving DecidableEq, Repr

/-- The storage after one mutating request (state component of the handler). -/
def applyOp (s : Storage) : Op → Storage
  | .create b => (createBook s (some b)).1
  | .update k b => (updateBook s k (some b)).1
  | .delete k => (deleteBook s k).1

/-- The storage after a sequence of mutating requests, starting from `s`. -/
def applyOps (s : Storage) (ops : List Op) : Storage :=
  ops.foldl applyOp s

/-- An update whose payload id matches its path id (creates and deletes are
unconstrained). -/
def idMatchesPath : Op → Bool
  | .update k b => b.ID = k
  | _ => true

/-- The stored `ID` fields are pairwise distinct. -/
def idsUnique (s : Storage) : Prop :=
  (s.map (fun kv => kv.2.ID)).Nodup

instance (s : Storage) : Decidable (idsUnique s) := by
  unfold idsUnique; infer_instance

/-- The map keys are pairwise distinct (every Go map satisfies this). -/
def keysNodup (s : Storage) : Prop :=
  (s.map Prod.fst).Nodup

instance (s : Storage) : Decidable (keysNodup s) := by
  unfold keysNodup; infer_instance

/-! ## Storage lemmas -/

theorem find_insert_self (s : Storage) (k : String) (b : Book) :
    (s.insert k b).find? k = some b := by
  induction s with
  | nil => simp [Storage.insert, Storage.find?]
  | cons kv rest ih =>
    obtain ⟨k0, v0⟩ := kv
    by_cases h : k0 = k <;> simp [Storage.insert, Storage.find?, h, ih]

theorem find_insert_ne (s : Storage) (k k' : String) (b : Book) (h : k' ≠ k) :
    (s.insert k b).find? k' = s.find? k' := by
  induction s with
  | nil => simp [Storage.insert, Storage.find?, Ne.symm h]
  | cons kv rest ih =>
    obtain ⟨k0, v0⟩ := kv
    by_cases hk : k0 = k
    · subst hk
      simp [Storage.insert, Storage.find?, Ne.symm h]
    · by_cases hk' : k0 = k' <;>
        simp [Storage.insert, Storage.find?, hk, hk', ih, h]

theorem find_erase_ne (s : Storage) (k k' : String) (h : k' ≠ k) :
    (s.erase k).find? k' = s.find? k' := by
  induction s with
  | nil => simp [Storage.erase]
  | cons kv rest ih =>
    obtain ⟨k0, v0⟩ := kv
    by_cases hk : k0 = k
    · subst hk
      simp [Storage.erase, Storage.find?, Ne.symm h]
    · by_cases hk' : k0 = k' <;>
        simp [Storage.erase, Storage.find?, hk, hk', ih, h]

theorem erase_insert_of_absent (s : Storage) (k : String) (b : Book)
    (h : s.find? k = none) : (s.insert k b).erase k = s := by
  induction s with
  | nil => simp [Storage.insert, Storage.erase]
  | cons kv rest ih =>
    obtain ⟨k0, v0⟩ := kv
    by_cases hk : k0 = k
    · simp [Storage.find?, hk] at h
    · simp only [Storage.find?, hk, if_false] at h
      simp [Storage.insert, Storage.erase, hk, ih h]

theorem mem_insert_entries (s : Storage) (k : String) (b : Book)
    (kv : String × Book) (hkv : kv ∈ s.insert k b) : kv ∈ s ∨ kv = (k, b) := by
  induction s with
  | nil => simpa [Storage.insert] using hkv
  | cons hd rest ih =>
    obtain ⟨k0, v0⟩ := hd
    by_cases hk : k0 = k
    · subst hk
      have he : Storage.insert ((k0, v0) :: rest) k0 b = (k0, b) :: rest := by
        simp [Storage.insert]
      rw [he] at hkv
      rcases List.mem_cons.mp hkv with h | h
      · exact Or.inr h
      · exact Or.inl (List.mem_cons_of_mem _ h)
    · have he : Storage.insert ((k0, v0) :: rest) k b =
          (k0, v0) :: Storage.insert rest k b := by
        simp [Storage.insert, hk]
      rw [he] at hkv
      rcases List.mem_cons.mp hkv with h | h
      · exact Or.inl (h ▸ List.mem_cons_self _ _)
      · rcases ih h with h | h
        · exact Or.inl (List.mem_cons_of_mem _ h)
        · exact Or.inr h

theorem mem_keys_insert (s : Storage) (k x : String) (b : Book)
    (hx : x ∈ (s.insert k b).map Prod.fst) : x ∈ s.map Prod.fst ∨ x = k := by
  rcases List.mem_map.mp hx with ⟨kv, hkv, hxe⟩
  rcases mem_insert_entries s k b kv hkv with h | h
  · exact Or.inl (List.mem_map.mpr ⟨kv, h, hxe⟩)
  · subst h
    exact Or.inr hxe.symm

theorem keysNodup_insert (s : Storage) (k : String) (b : Book)
    (h : keysNodup s) : keysNodup (s.insert k b) := by
  induction s with
  | nil => simp [Storage.insert, keysNodup]
  | cons kv rest ih =>
    obtain ⟨k0, v0⟩ := kv
    by_cases hk : k0 = k
    · subst hk
      simpa [Storage.insert, keysNodup] using h
    · simp only [keysNodup, List.map_cons, List.nodup_cons] at h
      have h1 := h.1
      have h2 := ih h.2
      simp only [Storage.insert, hk, if_false, keysNodup, List.map_cons,
        List.nodup_cons]
      refine ⟨fun hc => ?_, h2⟩
      rcases mem_keys_insert rest k k0 b hc with hm | hm
      · exact h1 hm
      · exact hk hm

theorem erase_sublist (s : Storage) (k : String) : (s.erase k).Sublist s := by
  induction s with
  | nil => simp [Storage.erase]
  | cons kv rest ih =>
    obtain ⟨k0, v0⟩ := kv
    by_cases hk : k0 = k
    · simp [Storage.erase, hk, List.sublist_cons_self (k0, v0) rest]
    · simpa [Storage.erase, hk] using List.Sublist.cons₂ (k0, v0) ih

theorem keysNodup_erase (s : Storage) (k : String) (h : keysNodup s) :
    keysNodup (s.erase k) := by
  exact List.Nodup.sublist ((erase_sublist s k).map Prod.fst) h

/-- Every entry a mutating request leaves in the store either was there
before or is the entry the request itself wrote, keyed by the id the handler
used (`b.ID` for create, the path id for update). -/
theorem mem_applyOp (s : Storage) (op : Op) (kv : String × Book)
    (hkv : kv ∈ applyOp s op) :
    kv ∈ s ∨ (∃ b, op = .create b ∧ kv = (b.ID, b)) ∨
      (∃ k b, op = .update k b ∧ kv = (k, b)) := by
  cases op with
  | create b =>
    simp only [applyOp, createBook] at hkv
    by_cases h : (s.find? b.ID).isSome
    · simp only [h, if_true] at hkv
      exact Or.inl hkv
    · simp only [h, if_false] at hkv
      rcases mem_insert_entries s b.ID b kv hkv with h | h
      · exact Or.inl h
      · exact Or.inr (Or.inl ⟨b, rfl, h⟩)
  | update k b =>
    simp only [applyOp, updateBook] at hkv
    by_cases h : (s.find? k).isSome
    · simp only [h, if_true] at hkv
      rcases mem_insert_entries s k b kv hkv with h | h
      · exact Or.inl h
      · exact Or.inr (Or.inr ⟨k, b, rfl, h⟩)
    · simp only [h, if_false] at hkv
      exact Or.inl hkv
  | delete k =>
    simp only [applyOp, deleteBook] at hkv
    by_cases h : (s.find? k).isSome
    · simp only [h, if_true] at hkv
      exact Or.inl ((erase_sublist s k).mem hkv)
    · simp only [h, if_false] at hkv
      exact Or.inl hkv

/-- One mutating request preserves key uniqueness. -/
theorem keysNodup_applyOp (s : Storage) (op : Op) (h : keysNodup s) :
    keysNodup (applyOp s op) := by
  cases op with
  | create b =>
    simp only [applyOp, createBook]
    by_cases hc : (s.find? b.ID).isSome
    · simpa [hc]
    · simpa [hc] using keysNodup_insert s b.ID b h
  | update k b =>
    simp only [applyOp, updateBook]
    by_cases hc : (s.find? k).isSome
    · simpa [hc] using keysNodup_insert s k b h
    · simpa [hc]
  | delete k =>
    simp only [applyOp, deleteBook]
    by_cases hc : (s.find? k).isSome
    · simpa [hc] using keysNodup_erase s k h
    · simpa [hc]

/-- Any sequence of mutating requests preserves key uniqueness. -/
theorem keysNodup_applyOps (s : Storage) (ops : List Op) (h : keysNodup s) :
    keysNodup (applyOps s ops) := by
  induction ops generalizing s with
  | nil => simpa [applyOps]
  | cons op rest ih =>
    simpa [applyOps, List.foldl_cons] using
      ih (applyOp s op) (keysNodup_applyOp s op h)

/-- If every stored record's id equals its key, one mutating request whose
update (if any) keys by its payload id preserves that. -/
theorem idKey_applyOp (s : Storage) (op : Op) (hop : idMatchesPath op = true)
    (h : ∀ kv ∈ s, kv.2.ID = kv.1) :
    ∀ kv ∈ applyOp s op, kv.2.ID = kv.1 := by
  intro kv hkv
  rcases mem_applyOp s op kv hkv with hm | ⟨b, _, hb⟩ | ⟨k, b, hup, hb⟩
  · exact h kv hm
  · subst hb; rfl
  · subst hup
    simp only [idMatchesPath, decide_eq_true_eq] at hop
    subst hb
    exact hop

/-- Extension of `idKey_applyOp` to sequences. -/
theorem idKey_applyOps (s : Storage) (ops : List Op)
    (hops : ∀ op ∈ ops, idMatchesPath op = true)
    (h : ∀ kv ∈ s, kv.2.ID = kv.1) :
    ∀ kv ∈ applyOps s ops, kv.2.ID = kv.1 := by
  induction ops generalizing s with
  | nil =>
    intro kv hkv
    exact h kv (by simpa [applyOps] using hkv)
  | cons op rest ih =>
    simp only [applyOps, List.foldl_cons]
    exact ih (applyOp s op)
      (fun o ho => hops o (List.mem_cons_of_mem op ho))
      (idKey_applyOp s op (hops op (List.mem_cons_self op rest)) h)

/-- When every stored record's id equals its key and keys are unique, ids
are unique. -/
theorem idsUnique_of_idKey (s : Storage) (hkeys : keysNodup s)
    (h : ∀ kv ∈ s, kv.2.ID = kv.1) : idsUnique s := by
  unfold idsUnique
  have : s.map (fun kv => kv.2.ID) = s.map Prod.fst :=
    List.map_congr_left h
  rw [this]
  exact hkeys

theorem foldl_appendBook (s : Storage) (l : List Book) :
    s.foldl appendBook (some l) = some (l ++ s.map Prod.snd) := by
  induction s generalizing l with
  | nil => simp
  | cons kv rest ih =>
    simp [appendBook, ih]

/-- On a non-empty storage the range loop collects exactly the stored values,
in storage order. -/
theorem collectBooks_nonempty (s : Storage) (h : s ≠ []) :
    collectBooks s = some (s.map Prod.snd) := by
  cases s with
  | nil => exact absurd rfl h
  | cons kv rest =>
    simp [collectBooks, appendBook, foldl_appendBook]

/-! ## The claims -/

/-- C1, counterexample: starting from the empty store, `Create {id:"a"}`,
`Create {id:"b"}`, then `Update("a", {id:"b"})` leaves two live Records whose
`id` field is `"b"` — `updateBook` stores the payload under the path key
without consulting the payload's `ID`, so the id-uniqueness invariant is
violated by a reachable state. -/
theorem updateBook_breaks_id_uniqueness :
    applyOps [] [Op.create ⟨"a", "n1", "w1"⟩, Op.create ⟨"b", "n2", "w2"⟩,
        Op.update "a" ⟨"b", "n3", "w3"⟩] =
      [("a", ⟨"b", "n3", "w3"⟩), ("b", ⟨"b", "n2", "w2"⟩)] ∧
    ¬ idsUnique [("a", ⟨"b", "n3", "w3"⟩), ("b", ⟨"b", "n2", "w2"⟩)] := by
  constructor
  · decide
  · decide

/-- C1, amended: after any sequence of Create/Update/Delete requests the
store's keys are unique, and the `id` fields of the live Records are unique
provided every Update's payload id equals its path id; an Update whose
payload id duplicates another live Record's id does break id-uniqueness. -/
theorem idsUnique_of_wellKeyedOps (ops : List Op)
    (hops : ∀ op ∈ ops, idMatchesPath op = true) :
    keysNodup (applyOps [] ops) ∧ idsUnique (applyOps [] ops) := by
  have hkeys : keysNodup (applyOps [] ops) :=
    keysNodup_applyOps [] ops (by simp [keysNodup])
  have hid : ∀ kv ∈ applyOps [] ops, kv.2.ID = kv.1 :=
    idKey_applyOps [] ops hops (by simp)
  exact ⟨hkeys, idsUnique_of_idKey _ hkeys hid⟩

/-- C1, witness for the amended theorem at a concrete request sequence. -/
theorem idsUnique_of_wellKeyedOps_concrete :
    (∀ op ∈ [Op.create ⟨"a", "n1", "w1"⟩, Op.update "a" ⟨"a", "n2", "w2"⟩,
        Op.delete "a", Op.create ⟨"b", "n3", "w3"⟩], idMatchesPath op = true) ∧
    (keysNodup (applyOps [] [Op.create ⟨"a", "n1", "w1"⟩,
        Op.update "a" ⟨"a", "n2", "w2"⟩, Op.delete "a",
        Op.create ⟨"b", "n3", "w3"⟩]) ∧
      idsUnique (applyOps [] [Op.create ⟨"a", "n1", "w1"⟩,
        Op.update "a" ⟨"a", "n2", "w2"⟩, Op.delete "a",
        Op.create ⟨"b", "n3", "w3"⟩])) :=
  ⟨by decide, idsUnique_of_wellKeyedOps _ (by decide)⟩

/-- C2: `createBook` runs its existence check before acquiring the mutex in
both lineages, so the check-then-insert sequence is not under one
continuously-held lock, and under the interleaving in which both goroutines
check before either locks, two concurrent Creates of the same id both observe
absence and both insert, both reporting 200. -/
theorem createBook_race_both_report_success :
    checkThenWriteAtomic false ginCreateOkTrace = false ∧
    checkThenWriteAtomic false muxCreateOkTrace = false ∧
    (runSched ⟨"x", "N", "A"⟩ raceSchedule).t0.sawExists = false ∧
    (runSched ⟨"x", "N", "A"⟩ raceSchedule).t1.sawExists = false ∧
    (runSched ⟨"x", "N", "A"⟩ raceSchedule).t0.status = some 200 ∧
    (runSched ⟨"x", "N", "A"⟩ raceSchedule).t1.status = some 200 := by
  refine ⟨by decide, by decide, by decide, by decide, by decide, by decide⟩

/-- C3, counterexample: in the gin lineage (`src/main.go`) a second Create
with an existing id answers status 404, not the claimed 400 (the mux lineage
does answer 400). -/
theorem createBook_duplicate_status_not_400 :
    (createBook [("1", ⟨"1", "A", "B"⟩)] (some ⟨"1", "C", "D"⟩)).2 =
      ⟨404, .err "Record already exists"⟩ ∧
    (createBook [("1", ⟨"1", "A", "B"⟩)] (some ⟨"1", "C", "D"⟩)).2.status ≠ 400 := by
  constructor
  · decide
  · decide

/-- C3, amended: a second Create with an existing id fails with the message
"Record already exists" — with status 400 in the mux lineage but 404 in the
gin lineage — and the store is left unchanged, still holding the first Record
at that id. -/
theorem createBook_duplicate_conflict (s : Storage) (b bNew : Book)
    (h : s.find? bNew.ID = some b) :
    createBook s (some bNew) = (s, ⟨404, .err "Record already exists"⟩) ∧
    createBookMux s (some bNew) = (s, ⟨400, .err "Record already exists"⟩) ∧
    (createBook s (some bNew)).1.find? bNew.ID = some b ∧
    (createBookMux s (some bNew)).1.find? bNew.ID = some b := by
  have hs : (s.find? bNew.ID).isSome = true := by rw [h]; rfl
  refine ⟨?_, ?_, ?_, ?_⟩ <;> simp [createBook, createBookMux, hs, h]

/-- C3, witness for the amended theorem at a concrete store. -/
theorem createBook_duplicate_conflict_concrete :
    Storage.find? [("1", ⟨"1", "A", "B"⟩)] "1" = some ⟨"1", "A", "B"⟩ ∧
    createBook [("1", ⟨"1", "A", "B"⟩)] (some ⟨"1", "C", "D"⟩) =
      ([("1", ⟨"1", "A", "B"⟩)], ⟨404, .err "Record already exists"⟩) :=
  ⟨by decide,
    (createBook_duplicate_conflict [("1", ⟨"1", "A", "B"⟩)] ⟨"1", "A", "B"⟩
      ⟨"1", "C", "D"⟩ (by decide)).1⟩

/-- C4, counterexample: on the empty store the handler's slice is still Go
`nil`, and encoding/json serializes a nil `[]Book` as the JSON literal
`null`, not as the empty array `[]`. -/
theorem returnAllBooks_empty_is_null :
    returnAllBooks [] = ⟨200, .books none⟩ ∧
    encodeBookSlice none = "null" ∧
    encodeBookSlice none ≠ "[]" := by
  refine ⟨by decide, by decide, by decide⟩

/-- C4, amended: List on an empty store responds 200 with a nil slice whose
JSON serialization is `null` (not `[]`); on every non-empty store it responds
200 with every current Record exactly once (in storage order), with no error
condition. -/
theorem returnAllBooks_spec (s : Storage) (h : s ≠ []) :
    returnAllBooks [] = ⟨200, .books none⟩ ∧
    encodeBookSlice none = "null" ∧
    returnAllBooks s = ⟨200, .books (some (s.map Prod.snd))⟩ := by
  refine ⟨by decide, by decide, ?_⟩
  simp [returnAllBooks, collectBooks_nonempty s h]

/-- C4, witness at a concrete one-element store. -/
theorem returnAllBooks_spec_concrete :
    ([("1", ⟨"1", "A", "B"⟩)] : Storage) ≠ [] ∧
    returnAllBooks [("1", ⟨"1", "A", "B"⟩)] =
      ⟨200, .books (some [⟨"1", "A", "B"⟩])⟩ :=
  ⟨by decide, (returnAllBooks_spec [("1", ⟨"1", "A", "B"⟩)] (by decide)).2.2⟩

/-- C5: when the path id `k` is present, Update stores the decoded record at
key `k` — even when the record's own `ID` differs from `k`, in which case
the entry at `record.ID` is untouched — and echoes the record with 200. -/
theorem updateBook_keys_on_path (s : Storage) (k : String) (r : Book)
    (h : (s.find? k).isSome = true) :
    updateBook s k (some r) = (s.insert k r, ⟨200, .book r⟩) ∧
    (s.insert k r).find? k = some r ∧
    (r.ID ≠ k → (s.insert k r).find? r.ID = s.find? r.ID) := by
  refine ⟨by simp [updateBook, h], find_insert_self s k r,
    fun hne => find_insert_ne s k r.ID r hne⟩

/-- C5, witness: updating key "1" with a record whose id is "2". -/
theorem updateBook_keys_on_path_concrete :
    (Storage.find? [("1", ⟨"1", "A", "B"⟩)] "1").isSome = true ∧
    updateBook [("1", ⟨"1", "A", "B"⟩)] "1" (some ⟨"2", "C", "D"⟩) =
      ([("1", ⟨"2", "C", "D"⟩)], ⟨200, .book ⟨"2", "C", "D"⟩⟩) :=
  ⟨by decide,
    (updateBook_keys_on_path [("1", ⟨"1", "A", "B"⟩)] "1" ⟨"2", "C", "D"⟩
      (by decide)).1⟩

/-- C6: on an id that is absent, Get, Update and Delete all answer 404
"Record not found" and leave the store unchanged; and after inserting that
id, a first Delete succeeds (removing exactly that entry) while a second
Delete of the same id answers 404. -/
theorem notFound_consistency_delete_twice (s : Storage) (k : String)
    (r b : Book) (h : s.find? k = none) :
    returnBooksByID s k = ⟨404, .err "Record not found"⟩ ∧
    updateBook s k (some r) = (s, ⟨404, .err "Record not found"⟩) ∧
    deleteBook s k = (s, ⟨404, .err "Record not found"⟩) ∧
    deleteBook (s.insert k b) k = (s, ⟨200, .msg "Book deleted successfully"⟩) ∧
    (deleteBook (deleteBook (s.insert k b) k).1 k).2 =
      ⟨404, .err "Record not found"⟩ := by
  have hns : (s.find? k).isSome = false := by rw [h]; rfl
  have hfirst : deleteBook (s.insert k b) k =
      (s, ⟨200, .msg "Book deleted successfully"⟩) := by
    simp [deleteBook, find_insert_self, erase_insert_of_absent s k b h]
  refine ⟨by simp [returnBooksByID, h], by simp [updateBook, hns],
    by simp [deleteBook, hns], hfirst, ?_⟩
  rw [hfirst]
  simp [deleteBook, hns]

/-- C6, witness at a concrete store missing the key "z". -/
theorem notFound_consistency_delete_twice_concrete :
    Storage.find? [("1", ⟨"1", "A", "B"⟩)] "z" = none ∧
    returnBooksByID [("1", ⟨"1", "A", "B"⟩)] "z" =
      ⟨404, .err "Record not found"⟩ :=
  ⟨by decide,
    (notFound_consistency_delete_twice [("1", ⟨"1", "A", "B"⟩)] "z"
      ⟨"z", "C", "D"⟩ ⟨"z", "E", "F"⟩ (by decide)).1⟩

/-- C7: a request whose body fails JSON decoding is answered 400 with the
fixed message "Invalid JSON format" by Create and Update in both lineages,
and the store is returned unchanged. -/
theorem decode_failure_400_no_mutation (s : Storage) (k : String) :
    createBook s none = (s, ⟨400, .err "Invalid JSON format"⟩) ∧
    createBookMux s none = (s, ⟨400, .err "Invalid JSON format"⟩) ∧
    updateBook s k none = (s, ⟨400, .err "Invalid JSON format"⟩) :=
  ⟨rfl, rfl, rfl⟩

/-- C8, counterexample: it is not the case that every handler path responds
only after the store's lock is released — the gin `updateBook` success path
(and others) run `c.JSON` before the deferred `Unlock`. -/
theorem respond_while_lock_held_exists :
    respondWhileHeld false ginUpdateOkTrace = true ∧
    allHandlerTraces.all (fun tr => !(respondWhileHeld false tr)) = false := by
  refine ⟨by decide, by decide⟩

/-- C8, amended: in every handler path of both lineages the body decode runs
with no store lock held (decode strictly precedes lock acquisition), and
`createBook` and `returnBooksByID` respond after releasing the lock; but
`returnAllBooks`, `updateBook` (both lock-holding paths) and `deleteBook`
encode and write their response while the lock is still held, because the
deferred unlock runs only after the handler body finishes. -/
theorem lock_io_ordering_amended :
    allHandlerTraces.all (fun tr => !(decodeWhileHeld false tr)) = true ∧
    [ginGetTrace, ginCreateDecodeErrTrace, ginCreateConflictTrace,
      ginCreateOkTrace, ginUpdateDecodeErrTrace,
      muxGetTrace, muxCreateDecodeErrTrace, muxCreateConflictTrace,
      muxCreateOkTrace, muxUpdateDecodeErrTrace].all
        (fun tr => !(respondWhileHeld false tr)) = true ∧
    [ginListTrace, ginUpdateNotFoundTrace, ginUpdateOkTrace,
      ginDeleteNotFoundTrace, ginDeleteOkTrace,
      muxListTrace, muxUpdateNotFoundTrace, muxUpdateOkTrace,
      muxDeleteNotFoundTrace, muxDeleteOkTrace].all
        (fun tr => respondWhileHeld false tr) = true := by
  refine ⟨by decide, by decide, by decide⟩

/-- C9: creating a record whose id is absent succeeds with 200 echoing the
record, and an immediate Get of that id succeeds with 200 returning the
identical record (all three fields equal). -/
theorem create_then_get_round_trip (s : Storage) (r : Book)
    (h : s.find? r.ID = none) :
    (createBook s (some r)).2 = ⟨200, .book r⟩ ∧
    returnBooksByID (createBook s (some r)).1 r.ID = ⟨200, .book r⟩ := by
  have hns : (s.find? r.ID).isSome = false := by rw [h]; rfl
  refine ⟨by simp [createBook, hns], ?_⟩
  simp [createBook, hns, returnBooksByID, find_insert_self]

/-- C9, witness: the spec's own example record on the empty store. -/
theorem create_then_get_round_trip_concrete :
    Storage.find? [] "1" = none ∧
    returnBooksByID (createBook [] (some ⟨"1", "A", "B"⟩)).1 "1" =
      ⟨200, .book ⟨"1", "A", "B"⟩⟩ :=
  ⟨by decide,
    (create_then_get_round_trip [] ⟨"1", "A", "B"⟩ (by decide)).2⟩

/-- C10: Create writes at most at key `r.ID` and Update and Delete at most at
the path key `k`, so every such request — successful or not, and for Update
with ANY payload, including one whose id collides with a different live
Record — leaves the entry at every other key `k'` exactly as it was.  Each
operation's conjunct assumes only that `k'` differs from the key that very
operation touches. -/
theorem mutations_preserve_other_keys (s : Storage) (r : Book) (k k' : String) :
    (k' ≠ r.ID →
      (createBook s (some r)).1.find? k' = s.find? k' ∧
      (createBookMux s (some r)).1.find? k' = s.find? k') ∧
    (k' ≠ k →
      (updateBook s k (some r)).1.find? k' = s.find? k' ∧
      (deleteBook s k).1.find? k' = s.find? k') := by
  refine ⟨fun h1 => ⟨?_, ?_⟩, fun h2 => ⟨?_, ?_⟩⟩
  · by_cases hc : (s.find? r.ID).isSome <;>
      simp [createBook, hc, find_insert_ne s r.ID k' r h1]
  · by_cases hc : (s.find? r.ID).isSome <;>
      simp [createBookMux, hc, find_insert_ne s r.ID k' r h1]
  · by_cases hc : (s.find? k).isSome <;>
      simp [updateBook, hc, find_insert_ne s k k' r h2]
  · by_cases hc : (s.find? k).isSome <;>
      simp [deleteBook, hc, find_erase_ne s k k' h2]

/-- C10, witness at a concrete two-key store: a Create at the absent id "a"
and an Update at the present path key "k" both leave the live entry at the
distinct key "z" untouched. -/
theorem mutations_preserve_other_keys_concrete :
    ("z" : String) ≠ "a" ∧ ("z" : String) ≠ "k" ∧
    (createBook [("k", ⟨"k", "A", "B"⟩), ("z", ⟨"z", "E", "F"⟩)]
        (some ⟨"a", "C", "D"⟩)).1.find? "z"
      = Storage.find? [("k", ⟨"k", "A", "B"⟩), ("z", ⟨"z", "E", "F"⟩)] "z" ∧
    (updateBook [("k", ⟨"k", "A", "B"⟩), ("z", ⟨"z", "E", "F"⟩)] "k"
        (some ⟨"a", "C", "D"⟩)).1.find? "z"
      = Storage.find? [("k", ⟨"k", "A", "B"⟩), ("z", ⟨"z", "E", "F"⟩)] "z" :=
  ⟨by decide, by decide,
    ((mutations_preserve_other_keys
      [("k", ⟨"k", "A", "B"⟩), ("z", ⟨"z", "E", "F"⟩)] ⟨"a", "C", "D"⟩ "k" "z").1
        (by decide)).1,
    ((mutations_preserve_other_keys
      [("k", ⟨"k", "A", "B"⟩), ("z", ⟨"z", "E", "F"⟩)] ⟨"a", "C", "D"⟩ "k" "z").2
        (by decide)).1⟩

end CrudApi
